import Mathlib

/-!
Verification of the outbound HTTP resilience layer of the study-by-exam BFF.

The definitions below are shallow embeddings of the TypeScript source under
src/lib/bff/web-client/.  Machine state (circuit-breaker counters, policy
caches) is passed explicitly; fallible JS code is modelled with Except;
wall-clock timestamps are Int (milliseconds, as produced by Date.now()).
-/

set_option autoImplicit false

namespace WebClient

/-! ### Hand-rolled retry loop

Embeds withRetry from src/lib/bff/web-client/api/client.ts (lines 190-210,
repeated at 443-463):

  let lastError = null; let delay = config.retry.initialDelay;
  for (let attempt = 1; attempt <= config.retry.maxAttempts; attempt++) (
    try ( return await fn(); ) catch (error) (
      lastError = error;
      if (attempt === config.retry.maxAttempts) break;
      await sleep(delay);
      delay = Math.min(delay * 2, config.retry.maxDelay); ) )
  throw lastError;

The attempt body fn is modelled as a function from the 1-based attempt index
to its outcome.  The embedding returns the surfaced result (error none models
the JS `throw null` that happens when maxAttempts is 0 and the loop body never
runs), the index of the last attempt that was executed (0 when none ran), and
the list of sleeps performed between attempts, in order. -/

structure RetryConfig where
  maxAttempts : Nat
  initialDelay : Nat
  maxDelay : Nat
  deriving Repr, DecidableEq

def withRetryGo {ε α : Type} (fn : Nat → Except ε α) (maxDelay : Nat) :
    Nat → Nat → Nat → Except (Option ε) α × Nat × List Nat
  | 0, _attempt, _delay => (Except.error none, 0, [])
  | fuel + 1, attempt, delay =>
    match fn attempt with
    | Except.ok v => (Except.ok v, attempt, [])
    | Except.error e =>
      if fuel = 0 then
        (Except.error (some e), attempt, [])
      else
        let r := withRetryGo fn maxDelay fuel (attempt + 1) (min (delay * 2) maxDelay)
        (r.1, r.2.1, delay :: r.2.2)

def withRetry {ε α : Type} (fn : Nat → Except ε α) (config : RetryConfig) :
    Except (Option ε) α × Nat × List Nat :=
  withRetryGo fn config.maxDelay config.maxAttempts 1 config.initialDelay

/-- Closed form of the sleep sequence of withRetry: starts at the initial
delay and is updated by delay := min (delay * 2) maxDelay after each sleep. -/
def delaySeq (initial maxDelay : Nat) : Nat → Nat
  | 0 => initial
  | k + 1 => min (delaySeq initial maxDelay k * 2) maxDelay

/-! ### Hand-rolled circuit breaker

Embeds the CircuitBreaker class of src/lib/bff/web-client/api/client.ts
(lines 478-523; the identical class appears at 215-248):

  private failures = 0; private lastFailureTime = 0; private isOpen = false;
  async execute(fn) (
    if (this.isOpen) (
      if (now - this.lastFailureTime > resetTimeout) ( this.isOpen = false; this.failures = 0; )
      else throw new Error("Circuit breaker is open"); )
    try ( const result = await fn(); this.failures = 0; return result; )
    catch (error) (
      this.failures++; this.lastFailureTime = Date.now();
      if (this.failures >= failureThreshold) this.isOpen = true;
      throw error; ) )

Date.now() is read twice: once for the open-window check (argument `now`) and
once when a failure is recorded (argument `failTime`; the network call runs in
between, so the two may differ).  The outcome of fn is passed in as an Except.
The Bool in the result records whether fn was invoked at all, i.e. whether
network I/O was attempted. -/

structure CircuitBreakerSettings where
  failureThreshold : Nat
  resetTimeout : Int
  deriving Repr, DecidableEq

structure CircuitBreakerState where
  failures : Nat
  lastFailureTime : Int
  isOpen : Bool
  deriving Repr, DecidableEq

def CircuitBreakerState.init : CircuitBreakerState :=
  { failures := 0, lastFailureTime := 0, isOpen := false }

inductive CBOutcome (ε α : Type) where
  | ok : α → CBOutcome ε α
  /-- models `throw new Error("Circuit breaker is open")` -/
  | circuitOpen : CBOutcome ε α
  /-- the error thrown by fn, rethrown by the breaker -/
  | failed : ε → CBOutcome ε α
  deriving Repr, DecidableEq

/-- The try/catch body shared by the closed state and the trial call. -/
def CircuitBreaker.runAttempt {ε α : Type} (cfg : CircuitBreakerSettings)
    (s : CircuitBreakerState) (failTime : Int) (fn : Except ε α) :
    CBOutcome ε α × CircuitBreakerState × Bool :=
  match fn with
  | Except.ok v => (CBOutcome.ok v, { s with failures := 0 }, true)
  | Except.error e =>
    let f := s.failures + 1
    (CBOutcome.failed e,
      { failures := f, lastFailureTime := failTime,
        isOpen := if cfg.failureThreshold ≤ f then true else s.isOpen },
      true)

def CircuitBreaker.execute {ε α : Type} (cfg : CircuitBreakerSettings)
    (s : CircuitBreakerState) (now failTime : Int) (fn : Except ε α) :
    CBOutcome ε α × CircuitBreakerState × Bool :=
  if s.isOpen then
    if cfg.resetTimeout < now - s.lastFailureTime then
      CircuitBreaker.runAttempt cfg { s with isOpen := false, failures := 0 } failTime fn
    else
      (CBOutcome.circuitOpen, s, false)
  else
    CircuitBreaker.runAttempt cfg s failTime fn

/-- Runs a sequence of calls through one shared breaker, threading its state.
Each call supplies its two Date.now() readings and the outcome its fn would
produce.  Returns each call's (outcome, fn-invoked) pair plus the final
breaker state. -/
def runCalls {ε α : Type} (cfg : CircuitBreakerSettings) (s : CircuitBreakerState) :
    List (Int × Int × Except ε α) → List (CBOutcome ε α × Bool) × CircuitBreakerState
  | [] => ([], s)
  | c :: rest =>
    let r := CircuitBreaker.execute cfg s c.1 c.2.1 c.2.2
    let tail := runCalls cfg r.2.1 rest
    ((r.1, r.2.2) :: tail.1, tail.2)

end WebClient

namespace WebClient

/-! ### Lemmas about the retry delay sequence -/

theorem delaySeq_shift (initial maxD : Nat) :
    ∀ k, delaySeq initial maxD (k + 1) = delaySeq (min (initial * 2) maxD) maxD k := by
  intro k
  induction k with
  | zero => rfl
  | succ k ih =>
    simp only [delaySeq] at ih ⊢
    rw [ih]

theorem delaySeq_eq_min (initial maxD : Nat) (h : initial ≤ maxD) :
    ∀ k, delaySeq initial maxD k = min (initial * 2 ^ k) maxD := by
  intro k
  induction k with
  | zero => simp [delaySeq, Nat.min_eq_left h]
  | succ k ih =>
    simp only [delaySeq, ih, pow_succ, ← mul_assoc]
    generalize initial * 2 ^ k = x
    omega

theorem delaySeq_cons (delay maxD n : Nat) :
    delay :: (List.range n).map (delaySeq (min (delay * 2) maxD) maxD) =
      (List.range (n + 1)).map (delaySeq delay maxD) := by
  rw [List.range_succ_eq_map, List.map_cons, List.map_map]
  refine congrArg₂ _ rfl ?_
  refine List.map_congr_left ?_
  intro a _
  simp [Function.comp, delaySeq_shift]

theorem withRetryGo_all_fail {ε α : Type} (fn : Nat → Except ε α) (e : Nat → ε)
    (maxD : Nat) (hfail : ∀ k, fn k = Except.error (e k)) :
    ∀ fuel attempt delay, 1 ≤ fuel →
      withRetryGo fn maxD fuel attempt delay =
        (Except.error (some (e (attempt + fuel - 1))), attempt + fuel - 1,
          (List.range (fuel - 1)).map (delaySeq delay maxD)) := by
  intro fuel
  induction fuel with
  | zero => intro _ _ h; omega
  | succ f ih =>
    intro attempt delay _
    cases f with
    | zero =>
      simp [withRetryGo, hfail attempt]
    | succ f' =>
      have h1 : withRetryGo fn maxD (f' + 1 + 1) attempt delay =
          ((withRetryGo fn maxD (f' + 1) (attempt + 1) (min (delay * 2) maxD)).1,
           (withRetryGo fn maxD (f' + 1) (attempt + 1) (min (delay * 2) maxD)).2.1,
           delay :: (withRetryGo fn maxD (f' + 1) (attempt + 1) (min (delay * 2) maxD)).2.2) := by
        simp [withRetryGo, hfail attempt]
      rw [h1, ih (attempt + 1) (min (delay * 2) maxD) (by omega)]
      have h2 : attempt + 1 + (f' + 1) - 1 = attempt + (f' + 1 + 1) - 1 := by omega
      have h3 : f' + 1 - 1 = f' := by omega
      have h4 : f' + 1 + 1 - 1 = f' + 1 := by omega
      rw [h2, h3, h4, delaySeq_cons]

/-- C3: for an endpoint whose every attempt fails, withRetry performs exactly
maxAttempts attempts in total (the returned counter is the index of the last
attempt executed), sleeps between attempts following the sequence that starts
at initialDelay and doubles with cap maxDelay (hence non-decreasing and never
above maxDelay), and surfaces the failure observed on the last attempt. -/
theorem retry_exhausts_attempts {ε α : Type} (cfg : RetryConfig)
    (fn : Nat → Except ε α) (e : Nat → ε)
    (h1 : 1 ≤ cfg.maxAttempts) (h2 : cfg.initialDelay ≤ cfg.maxDelay)
    (hfail : ∀ k, fn k = Except.error (e k)) :
    withRetry fn cfg =
      (Except.error (some (e cfg.maxAttempts)), cfg.maxAttempts,
        (List.range (cfg.maxAttempts - 1)).map (delaySeq cfg.initialDelay cfg.maxDelay))
    ∧ (∀ k, delaySeq cfg.initialDelay cfg.maxDelay k = min (cfg.initialDelay * 2 ^ k) cfg.maxDelay)
    ∧ (∀ k, delaySeq cfg.initialDelay cfg.maxDelay k ≤ delaySeq cfg.initialDelay cfg.maxDelay (k + 1))
    ∧ (∀ k, delaySeq cfg.initialDelay cfg.maxDelay k ≤ cfg.maxDelay) := by
  refine ⟨?_, delaySeq_eq_min _ _ h2, ?_, ?_⟩
  · have h := withRetryGo_all_fail fn e cfg.maxDelay hfail cfg.maxAttempts 1 cfg.initialDelay h1
    rw [withRetry, h]
    have : 1 + cfg.maxAttempts - 1 = cfg.maxAttempts := by omega
    rw [this]
  · intro k
    rw [delaySeq_eq_min _ _ h2, delaySeq_eq_min _ _ h2, pow_succ, ← mul_assoc]
    generalize cfg.initialDelay * 2 ^ k = x
    omega
  · intro k
    rw [delaySeq_eq_min _ _ h2]
    exact min_le_right _ _

/-- Witness for C3 with the user-service retry configuration
(maxAttempts 3, initialDelay 1000, maxDelay 5000) and a permanently
failing attempt body. -/
theorem retry_exhausts_attempts_witness :
    withRetry (fun k => (Except.error k : Except Nat Unit)) ⟨3, 1000, 5000⟩ =
      (Except.error (some 3), 3, [1000, 2000]) := by
  have h := retry_exhausts_attempts (ε := Nat) (α := Unit) ⟨3, 1000, 5000⟩
    (fun k => Except.error k) (fun k => k) (by decide) (by decide) (fun k => rfl)
  exact h.1.trans (by rfl)

end WebClient

namespace WebClient

/-! ### Circuit-breaker open-window behaviour -/

theorem execute_rejected_in_window {ε α : Type} (cfg : CircuitBreakerSettings)
    (s : CircuitBreakerState) (now failTime : Int) (fn : Except ε α)
    (hOpen : s.isOpen = true)
    (hWin : now < s.lastFailureTime + cfg.resetTimeout) :
    CircuitBreaker.execute cfg s now failTime fn = (CBOutcome.circuitOpen, s, false) := by
  unfold CircuitBreaker.execute
  rw [hOpen]
  simp only [if_true]
  rw [if_neg (by omega)]

theorem execute_trial_invoked {ε α : Type} (cfg : CircuitBreakerSettings)
    (s : CircuitBreakerState) (now failTime : Int) (fn : Except ε α)
    (hOpen : s.isOpen = true)
    (hAfter : s.lastFailureTime + cfg.resetTimeout < now) :
    (CircuitBreaker.execute cfg s now failTime fn).2.2 = true := by
  unfold CircuitBreaker.execute
  rw [hOpen]
  simp only [if_true]
  rw [if_pos (by omega)]
  cases fn <;> rfl

theorem runCalls_all_rejected {ε α : Type} (cfg : CircuitBreakerSettings)
    (s : CircuitBreakerState) (hOpen : s.isOpen = true) :
    ∀ calls : List (Int × Int × Except ε α),
      (∀ c ∈ calls, c.1 < s.lastFailureTime + cfg.resetTimeout) →
      runCalls cfg s calls = (calls.map (fun _ => (CBOutcome.circuitOpen, false)), s) := by
  intro calls
  induction calls with
  | nil => intro _; rfl
  | cons c rest ih =>
    intro h
    have hc := h c (List.mem_cons_self _ _)
    have hrej := execute_rejected_in_window cfg s c.1 c.2.1 c.2.2 hOpen hc
    simp only [runCalls, hrej, List.map_cons]
    rw [ih (fun x hx => h x (List.mem_cons_of_mem _ hx))]

/-- C5: once the breaker for a service is open with lastFailureTime = T and
resetTimeout = D, every call in any sequence of calls whose check times are
strictly before T + D is rejected with the circuit-open error, without
invoking fn (no network I/O) and without changing the breaker state; and a
call whose check time is after T + D runs fn, i.e. is let through as a trial. -/
theorem open_breaker_window {ε α : Type} (cfg : CircuitBreakerSettings)
    (s : CircuitBreakerState) (T D : Int)
    (calls : List (Int × Int × Except ε α)) (now failTime : Int) (fn : Except ε α)
    (hOpen : s.isOpen = true) (hT : s.lastFailureTime = T) (hD : cfg.resetTimeout = D)
    (hcalls : ∀ c ∈ calls, c.1 < T + D) :
    runCalls cfg s calls = (calls.map (fun _ => (CBOutcome.circuitOpen, false)), s)
      ∧ (T + D < now → (CircuitBreaker.execute cfg s now failTime fn).2.2 = true) := by
  constructor
  · exact runCalls_all_rejected cfg s hOpen calls (by rw [hT, hD]; exact hcalls)
  · intro hnow
    exact execute_trial_invoked cfg s now failTime fn hOpen (by omega)

/-- Witness for C5: a breaker that opened at T = 0 with D = 30000 rejects the
calls at 1, 15000 and 29999 ms without network I/O and without state change,
and the call at 30001 ms invokes its fn. -/
theorem open_breaker_window_witness :
    runCalls (ε := Unit) (α := Nat) ⟨5, 30000⟩ ⟨5, 0, true⟩
        [(1, 1, Except.error ()), (15000, 15000, Except.ok 2), (29999, 29999, Except.error ())] =
      ([(CBOutcome.circuitOpen, false), (CBOutcome.circuitOpen, false),
        (CBOutcome.circuitOpen, false)], ⟨5, 0, true⟩)
    ∧ (CircuitBreaker.execute (ε := Unit) ⟨5, 30000⟩ ⟨5, 0, true⟩ 30001 30001
        (Except.ok (7 : Nat))).2.2 = true := by
  have h := open_breaker_window (ε := Unit) (α := Nat) ⟨5, 30000⟩ ⟨5, 0, true⟩ 0 30000
    [(1, 1, Except.error ()), (15000, 15000, Except.ok 2), (29999, 29999, Except.error ())]
    30001 30001 (Except.ok 7) rfl rfl rfl
    (by intro c hc; fin_cases hc <;> decide)
  exact ⟨h.1, h.2 (by decide)⟩

/-- C6 counterexample: the claim says a trial call that fails re-opens the
breaker immediately.  With failureThreshold = 5 (the default), a breaker that
opened at T = 0 with resetTimeout = 30000 is probed at 30001 ms; the trial
fails, yet the resulting state has failures = 1 and isOpen = false — the
breaker is left CLOSED, not re-opened. -/
theorem failed_trial_leaves_breaker_closed :
    CircuitBreaker.execute (ε := Unit) (α := Nat) ⟨5, 30000⟩ ⟨5, 0, true⟩ 30001 30005
        (Except.error ()) =
      (CBOutcome.failed (), ⟨1, 30005, false⟩, true) := by
  rfl

/-- C6 amended: a trial call (first call after the open window) that succeeds
resets the breaker to closed with failures = 0; a trial call that fails sets
failures to 1, restarts the failure timestamp from the failure's own
Date.now() reading, and re-opens the breaker only when failureThreshold ≤ 1 —
for larger thresholds the breaker remains closed after a failed trial. -/
theorem trial_call_transitions {ε α : Type} (cfg : CircuitBreakerSettings)
    (s : CircuitBreakerState) (now failTime : Int)
    (hOpen : s.isOpen = true)
    (hAfter : s.lastFailureTime + cfg.resetTimeout < now) :
    (∀ v : α, CircuitBreaker.execute (ε := ε) cfg s now failTime (Except.ok v) =
        (CBOutcome.ok v, ⟨0, s.lastFailureTime, false⟩, true))
    ∧ (∀ e : ε, CircuitBreaker.execute (α := α) cfg s now failTime (Except.error e) =
        (CBOutcome.failed e, ⟨1, failTime, if cfg.failureThreshold ≤ 1 then true else false⟩,
          true)) := by
  constructor
  · intro v
    unfold CircuitBreaker.execute
    rw [hOpen]
    simp only [if_true]
    rw [if_pos (by omega)]
    rfl
  · intro e
    unfold CircuitBreaker.execute
    rw [hOpen]
    simp only [if_true]
    rw [if_pos (by omega)]
    unfold CircuitBreaker.runAttempt
    simp

/-- Witness for C6 (amended): the successful-trial half at concrete inputs. -/
theorem trial_call_transitions_witness :
    CircuitBreaker.execute (ε := Unit) ⟨5, 30000⟩ ⟨5, 0, true⟩ 30001 30005
        (Except.ok (7 : Nat)) =
      (CBOutcome.ok 7, ⟨0, 0, false⟩, true) :=
  (trial_call_transitions ⟨5, 30000⟩ ⟨5, 0, true⟩ 30001 30005 rfl (by decide)).1 7

end WebClient

namespace WebClient

/-! ### Endpoint registry

Embeds src/lib/bff/web-client/endpoints.ts: the static endpointConfigs table,
its flattening into the exported `endpoints` record, the `domains` table
(environment variable with a localhost fallback), and getEndpointUrl /
getEndpointTimeout / getCircuitBreakerConfig / getRetryConfig.

JS property access on a missing key yields undefined, and reading a property
of undefined throws TypeError; lookups therefore return Option and the
accessor functions return Except JsError. -/

inductive JsError where
  /-- a TypeError raised by the runtime, e.g. reading a property of undefined -/
  | typeError : String → JsError
  /-- an explicitly constructed Error(message) -/
  | jsError : String → JsError
  deriving Repr, DecidableEq

structure BackoffOptions where
  initialDelay : Nat
  maxDelay : Nat
  deriving Repr, DecidableEq

structure RetryOptions where
  maxAttempts : Nat
  backoff : BackoffOptions
  deriving Repr, DecidableEq

structure CircuitBreakerOptions where
  threshold : Nat
  duration : Nat
  minimumThroughput : Option Nat
  deriving Repr, DecidableEq

/-- Raw per-endpoint entry of endpointConfigs (fields absent in the source
literal are none). -/
structure EndpointEntry where
  path : String
  timeout : Option Nat
  retry : Option RetryOptions
  deriving Repr, DecidableEq

/-- Raw per-service group of endpointConfigs. -/
structure DomainGroup where
  domain : String
  defaultTimeout : Nat
  circuitBreaker : CircuitBreakerOptions
  retry : RetryOptions
  endpoints : List (String × EndpointEntry)
  deriving Repr, DecidableEq

def endpointConfigs : List (String × DomainGroup) :=
  [("user",
    { domain := "userApi", defaultTimeout := 5000,
      circuitBreaker := ⟨5, 30000, some 3⟩,
      retry := ⟨3, ⟨1000, 5000⟩⟩,
      endpoints :=
        [("getUser", ⟨"/users/:id", none, none⟩),
         ("createUser", ⟨"/users", some 10000, some ⟨2, ⟨2000, 8000⟩⟩⟩)] }),
   ("exam",
    { domain := "examApi", defaultTimeout := 8000,
      circuitBreaker := ⟨3, 60000, none⟩,
      retry := ⟨2, ⟨1500, 4000⟩⟩,
      endpoints :=
        [("getExams", ⟨"/exams", none, none⟩),
         ("getExamById", ⟨"/exams/:id", some 5000, none⟩),
         ("submitExam", ⟨"/exams/:id/submit", some 15000, some ⟨5, ⟨1000, 10000⟩⟩⟩)] }),
   ("admin",
    { domain := "adminApi", defaultTimeout := 15000,
      circuitBreaker := ⟨2, 120000, some 2⟩,
      retry := ⟨3, ⟨2000, 8000⟩⟩,
      endpoints := [("getAdminStats", ⟨"/admin/stats", none, none⟩)] })]

/-- Flattened endpoint entry, as produced by the reduce in endpoints.ts:
timeout := endpoint.timeout ?? defaultTimeout, circuitBreaker := the group's,
retry := endpoint.retry ?? the group's. -/
structure EndpointInternalConfig where
  domain : String
  path : String
  timeout : Nat
  circuitBreaker : CircuitBreakerOptions
  retry : RetryOptions
  deriving Repr, DecidableEq

def endpoints : List (String × EndpointInternalConfig) :=
  endpointConfigs.foldl
    (fun acc dg =>
      acc ++ dg.2.endpoints.map (fun ep =>
        (ep.1,
         { domain := dg.2.domain, path := ep.2.path,
           timeout := ep.2.timeout.getD dg.2.defaultTimeout,
           circuitBreaker := dg.2.circuitBreaker,
           retry := ep.2.retry.getD dg.2.retry })))
    []

/-- Process environment, as a partial map from variable name to value. -/
abbrev Env := String → Option String

def envEmpty : Env := fun _ => none

/-- The domains table: process.env.X_API_DOMAIN ?? localhost default.  The
source object has exactly the three keys; any other access is undefined. -/
def domains (env : Env) (key : String) : Option String :=
  if key = "userApi" then some ((env "USER_API_DOMAIN").getD "http://localhost:8081")
  else if key = "examApi" then some ((env "EXAM_API_DOMAIN").getD "http://localhost:8082")
  else if key = "adminApi" then some ((env "ADMIN_API_DOMAIN").getD "http://localhost:8083")
  else none

def lookupEndpoint (endpointKey : String) : Option EndpointInternalConfig :=
  (endpoints.find? (fun p => p.1 == endpointKey)).map Prod.snd

/-- JS String.prototype.replace with a string pattern: replaces only the FIRST
occurrence of the pattern (dollar-escape sequences in the replacement are not
modelled; no replacement value handled below contains a dollar sign). -/
def replaceFirst (pat repl : List Char) : List Char → List Char
  | [] => if pat.isPrefixOf ([] : List Char) then repl else []
  | c :: rest =>
    if pat.isPrefixOf (c :: rest) then repl ++ (c :: rest).drop pat.length
    else c :: replaceFirst pat repl rest

def jsReplaceOnce (s pat repl : String) : String :=
  ⟨replaceFirst pat.toList repl.toList s.toList⟩

/-- The substitution loop of getEndpointUrl:
Object.entries(params).forEach: resolvedPath = resolvedPath.replace(":" + key, value). -/
def resolvePath (path : String) (params : List (String × String)) : String :=
  params.foldl (fun resolved kv => jsReplaceOnce resolved (":" ++ kv.1) kv.2) path

/-- getEndpointUrl (endpoints.ts 161-174).  An unknown key makes
`endpoints[endpointKey]` undefined and the subsequent `.path` access throw a
TypeError.  The template literal stringifies an undefined domain lookup as
"undefined" (unreachable for registered endpoints). -/
def getEndpointUrl (env : Env) (endpointKey : String)
    (params : List (String × String)) : Except JsError String :=
  match lookupEndpoint endpointKey with
  | none => Except.error (JsError.typeError "cannot read path of undefined")
  | some endpoint =>
    Except.ok (((domains env endpoint.domain).getD "undefined")
      ++ resolvePath endpoint.path params)

/-- getEndpointTimeout (endpoints.ts 180-182). -/
def getEndpointTimeout (endpointKey : String) : Except JsError Nat :=
  match lookupEndpoint endpointKey with
  | none => Except.error (JsError.typeError "cannot read timeout of undefined")
  | some endpoint => Except.ok endpoint.timeout

/-- getCircuitBreakerConfig (endpoints.ts 188-190). -/
def getCircuitBreakerConfig (endpointKey : String) : Except JsError CircuitBreakerOptions :=
  match lookupEndpoint endpointKey with
  | none => Except.error (JsError.typeError "cannot read circuitBreaker of undefined")
  | some endpoint => Except.ok endpoint.circuitBreaker

/-- getRetryConfig (endpoints.ts 196-198). -/
def getRetryConfig (endpointKey : String) : Except JsError RetryOptions :=
  match lookupEndpoint endpointKey with
  | none => Except.error (JsError.typeError "cannot read retry of undefined")
  | some endpoint => Except.ok endpoint.retry

end WebClient

namespace WebClient

/-! ### URL building: claims C8, C9, C10 -/

theorem replaceFirst_no_occurrence (pat repl : List Char) :
    ∀ s : List Char, ¬ pat <:+: s → replaceFirst pat repl s = s := by
  intro s
  induction s with
  | nil =>
    intro h
    have hne : pat.isPrefixOf ([] : List Char) = false := by
      cases hp : pat.isPrefixOf ([] : List Char)
      · rfl
      · exact absurd ((List.isPrefixOf_iff_prefix.mp hp).isInfix) h
    simp [replaceFirst, hne]
  | cons c rest ih =>
    intro h
    have hne : pat.isPrefixOf (c :: rest) = false := by
      cases hp : pat.isPrefixOf (c :: rest)
      · rfl
      · exact absurd ((List.isPrefixOf_iff_prefix.mp hp).isInfix) h
    have hrest : ¬ pat <:+: rest := fun hr => h (hr.trans (List.suffix_cons c rest).isInfix)
    simp [replaceFirst, hne, ih hrest]

/-- C8 counterexample: the claim says buildUrl("getUser", ( id := "42" )) with
path template /users/:id yields exactly /users/42.  getEndpointUrl returns the
domain-prefixed URL http://localhost:8081/users/42 (default environment), not
the bare path /users/42. -/
theorem buildUrl_returns_domain_prefixed_url :
    getEndpointUrl envEmpty "getUser" [("id", "42")] =
      Except.ok "http://localhost:8081/users/42"
    ∧ getEndpointUrl envEmpty "getUser" [("id", "42")] ≠ Except.ok "/users/42" := by
  constructor
  · rfl
  · intro hc
    have h0 : getEndpointUrl envEmpty "getUser" [("id", "42")] =
        Except.ok "http://localhost:8081/users/42" := rfl
    have heq : ("http://localhost:8081/users/42" : String) = "/users/42" :=
      Except.ok.inj (h0.symm.trans hc)
    exact absurd heq (by decide)

/-- C8 amended: for getUser with id = "42", the :id token is substituted with
the caller-supplied string verbatim — the resolved path is exactly /users/42 —
and getEndpointUrl returns that path appended to the service base URL
(http://localhost:8081 under the default environment). -/
theorem buildUrl_substitutes_id_token :
    resolvePath "/users/:id" [("id", "42")] = "/users/42"
    ∧ getEndpointUrl envEmpty "getUser" [("id", "42")] =
        Except.ok ("http://localhost:8081" ++ "/users/42") := by
  constructor
  · rfl
  · rfl

/-- C10 counterexample: the claim says a supplied parameter whose key does not
occur in the path template is silently ignored.  The key "i" is not a token of
/users/:id, yet replace(":i", "X") rewrites the prefix of the :id token and
the URL becomes /users/Xd instead of being left unchanged. -/
theorem stray_param_key_rewrites_token :
    getEndpointUrl envEmpty "getUser" [("i", "X")] =
      Except.ok "http://localhost:8081/users/Xd"
    ∧ getEndpointUrl envEmpty "getUser" [("i", "X")] ≠
        Except.ok "http://localhost:8081/users/:id" := by
  constructor
  · rfl
  · intro hc
    have h0 : getEndpointUrl envEmpty "getUser" [("i", "X")] =
        Except.ok "http://localhost:8081/users/Xd" := rfl
    have heq : ("http://localhost:8081/users/Xd" : String) =
        "http://localhost:8081/users/:id" :=
      Except.ok.inj (h0.symm.trans hc)
    exact absurd heq (by decide)

/-- C10 amended: getEndpointUrl never raises for a registered endpoint — for
any parameter record it returns ok with the substituted path appended to the
domain; a :token with no matching parameter is left verbatim in the URL; and a
parameter whose ":key" string occurs nowhere in the template is ignored.  (A
key that is a proper prefix of a template token is NOT ignored, as the
counterexample shows.) -/
theorem getEndpointUrl_total_and_inert :
    (∀ (env : Env) (endpointKey : String) (e : EndpointInternalConfig)
        (params : List (String × String)),
      lookupEndpoint endpointKey = some e →
      getEndpointUrl env endpointKey params =
        Except.ok (((domains env e.domain).getD "undefined") ++ resolvePath e.path params))
    ∧ getEndpointUrl envEmpty "getUser" [] = Except.ok "http://localhost:8081/users/:id"
    ∧ (∀ key value : String, ¬ ((":" ++ key).toList <:+: "/users/:id".toList) →
        getEndpointUrl envEmpty "getUser" [(key, value)] =
          Except.ok "http://localhost:8081/users/:id") := by
  refine ⟨?_, rfl, ?_⟩
  · intro env endpointKey e params h
    unfold getEndpointUrl
    rw [h]
  · intro key value h
    have hstep : getEndpointUrl envEmpty "getUser" [(key, value)] =
        Except.ok ("http://localhost:8081" ++ resolvePath "/users/:id" [(key, value)]) := rfl
    have hres : resolvePath "/users/:id" [(key, value)] = "/users/:id" := by
      show jsReplaceOnce "/users/:id" (":" ++ key) value = "/users/:id"
      unfold jsReplaceOnce
      rw [replaceFirst_no_occurrence _ _ _ h]
      rfl
    rw [hstep, hres]
    rfl

/-- Witness for C10 (amended): the parameter key "foo" occurs nowhere in
/users/:id and leaves the URL untouched. -/
theorem getEndpointUrl_total_and_inert_witness :
    getEndpointUrl envEmpty "getUser" [("foo", "X")] =
      Except.ok "http://localhost:8081/users/:id" :=
  getEndpointUrl_total_and_inert.2.2 "foo" "X" (by decide)

/-! ### Calling an unknown endpoint: claim C9

Models one call through the endpoint-keyed BFF client (request in
src/lib/bff/web-client/infrastructure/bffApiClient.ts lines 54-100, same flow
in the bffApiClient companion of config/resilience.ts lines 177-219):
createPolicies(endpointKey) first reads the endpoint's timeout, retry and
breaker settings — for an unknown key the very first read throws the
TypeError, before any policy or fetch exists — then getEndpointUrl builds the
URL, and only then does the policy-wrapped fetch run.  The cockatiel retry
loop itself is an external library (not under src/), so the fetch phase reuses
the withRetry embedding as its retry semantics and reports how many fetch
attempts ran; the claim is decided by the resolution phase, which is in src/. -/

def bffRequest (env : Env) (endpointKey : String) (params : List (String × String))
    (fetchResult : Nat → Except JsError String) :
    Except (Option JsError) String × Nat :=
  match getEndpointTimeout endpointKey with
  | Except.error e => (Except.error (some e), 0)
  | Except.ok _timeoutMs =>
    match getRetryConfig endpointKey with
    | Except.error e => (Except.error (some e), 0)
    | Except.ok rc =>
      match getEndpointUrl env endpointKey params with
      | Except.error e => (Except.error (some e), 0)
      | Except.ok _url =>
        let r := withRetry fetchResult ⟨rc.maxAttempts, rc.backoff.initialDelay, rc.backoff.maxDelay⟩
        (r.1, r.2.1)

/-- C9 counterexample: the claim says an absent endpoint name fails with an
UnknownEndpoint error.  The call does fail before any fetch (0 attempts), but
the surfaced failure is a raw TypeError from reading a property of undefined —
the code has no UnknownEndpoint classification at all (JsError, the error
type of the embedded accessors, has no such constructor). -/
theorem unknown_endpoint_raw_type_error :
    bffRequest envEmpty "getUserProfile" [] (fun _ => Except.ok "unused") =
      (Except.error (some (JsError.typeError "cannot read timeout of undefined")), 0) := by
  rfl

/-- C9 amended: calling any endpoint name absent from the registry fails with
the raw TypeError thrown while policy construction reads the endpoint's
timeout; the failure happens before any fetch attempt (zero attempts), so it
is fatal to the call and never retried. -/
theorem unknown_endpoint_fails_before_any_attempt (env : Env) (endpointKey : String)
    (params : List (String × String)) (fetchResult : Nat → Except JsError String)
    (h : lookupEndpoint endpointKey = none) :
    bffRequest env endpointKey params fetchResult =
      (Except.error (some (JsError.typeError "cannot read timeout of undefined")), 0) := by
  unfold bffRequest getEndpointTimeout
  rw [h]

/-- Witness for C9 (amended) at a concrete absent endpoint name. -/
theorem unknown_endpoint_fails_before_any_attempt_witness :
    bffRequest envEmpty "deleteUser" [] (fun _ => Except.error (JsError.jsError "boom")) =
      (Except.error (some (JsError.typeError "cannot read timeout of undefined")), 0) :=
  unknown_endpoint_fails_before_any_attempt envEmpty "deleteUser" []
    (fun _ => Except.error (JsError.jsError "boom")) (by rfl)

end WebClient

namespace WebClient

/-! ### Response handling of a 204 status: claim C7

Embeds the response handling of the two cited call paths.  HttpResponse.ok
mirrors Response.ok (status in 200..299).  res.json() on an empty body — a
204 No Content has one — rejects; a non-empty body is abstracted as parsing
to a value tagged with its text.  Each handler also reports whether
res.json() was invoked on the response. -/

structure HttpResponse where
  status : Nat
  body : Option String
  deriving Repr, DecidableEq

def HttpResponse.ok (r : HttpResponse) : Bool :=
  decide (200 ≤ r.status) && decide (r.status ≤ 299)

inductive Payload where
  | emptyObj : Payload
  | value : String → Payload
  deriving Repr, DecidableEq

def jsonParse (body : Option String) : Except JsError Payload :=
  match body with
  | none => Except.error (JsError.jsError "unexpected end of JSON input")
  | some s => Except.ok (Payload.value s)

/-- Response handling of bffApiClient (src/lib/bff/web-client/bffApiClient.ts
lines 67-85; same shape at infrastructure/bffApiClient.ts 75-93): inside the
policy fn a non-ok response throws an error built from its body; after the
policy, status 204 returns an empty object WITHOUT calling res.json(); any
other status parses the body. -/
def bffApiClientHandle (res : HttpResponse) : Except JsError Payload × Bool :=
  if res.ok = false then
    (Except.error (JsError.jsError "non-2xx response thrown inside policy"), true)
  else if res.status = 204 then
    (Except.ok Payload.emptyObj, false)
  else
    (jsonParse res.body, true)

/-- Response handling of fetchApi (src/lib/bff/web-client/api/client.ts lines
160-171): a non-ok response throws without reading the body; every ok
response — 204 included — goes straight to response.json(). -/
def fetchApiHandle (res : HttpResponse) : Except JsError Payload × Bool :=
  if res.ok = false then
    (Except.error (JsError.jsError "HTTP error"), false)
  else
    (jsonParse res.body, true)

/-- C7 counterexample: the claim says a 204 response is returned as success
with an empty payload and the body is never parsed.  The cited fetchApi path
calls response.json() on a 204 (flag true) and the result is not the empty
object — the parse of the empty body fails. -/
theorem fetchApi_parses_204_body :
    (fetchApiHandle ⟨204, none⟩).2 = true
    ∧ (fetchApiHandle ⟨204, none⟩).1 ≠ Except.ok Payload.emptyObj := by
  constructor
  · rfl
  · intro hc
    have h0 : (fetchApiHandle ⟨204, none⟩).1 =
        Except.error (JsError.jsError "unexpected end of JSON input") := rfl
    exact Except.noConfusion (h0.symm.trans hc)

/-- C7 amended: the bffApiClient facade paths return success with an empty
object for any 204 response and never invoke res.json() on it; the fetchApi
path of api/client.ts, by contrast, always invokes response.json() on an ok
response, 204 included. -/
theorem bff_204_returns_empty_payload_unparsed :
    (∀ body : Option String,
      bffApiClientHandle ⟨204, body⟩ = (Except.ok Payload.emptyObj, false))
    ∧ (∀ body : Option String, (fetchApiHandle ⟨204, body⟩).2 = true) := by
  constructor
  · intro body; rfl
  · intro body; rfl

/-! ### Retry classification: claim C1

Every retry policy in the cited executors is built with cockatiel's handleAll
(src api/client.ts line 65, bffApiClient.ts line 33, webApiClient.ts line 23):
the policy handles — i.e. retries — every thrown error.  The retry driver
below is modelled from the spec (the cockatiel library itself is not under
src/): attempts up to maxAttempts total, retrying an attempt failure only
while the configured handle predicate accepts it.  The predicate instance
(handleAll) and the classification of attempt outcomes (the !res.ok throw)
come from the source. -/

inductive CallFailure where
  | network : CallFailure
  | httpStatus : Nat → CallFailure
  | timedOut : CallFailure
  | circuitOpen : CallFailure
  deriving Repr, DecidableEq

/-- cockatiel handleAll, as configured at every retry(...) call site in src:
every failure is handled. -/
def handleAll (_ : CallFailure) : Bool := true

def retryHandlingGo {α : Type} (pred : CallFailure → Bool)
    (fn : Nat → Except CallFailure α) : Nat → Nat → Except CallFailure α × Nat
  | attempt, 0 => (fn attempt, attempt)
  | attempt, retriesLeft + 1 =>
    match fn attempt with
    | Except.ok v => (Except.ok v, attempt)
    | Except.error e =>
      if pred e then retryHandlingGo pred fn (attempt + 1) retriesLeft
      else (Except.error e, attempt)

/-- Modelled from the spec: the retry executor runs up to maxAttempts attempts
in total (including the first) and retries a failure only while the handle
predicate accepts it.  Returns the surfaced outcome and the total number of
attempts executed. -/
def retryHandling {α : Type} (pred : CallFailure → Bool)
    (fn : Nat → Except CallFailure α) (maxAttempts : Nat) : Except CallFailure α × Nat :=
  retryHandlingGo pred fn 1 (maxAttempts - 1)

/-- The attempt body of bffApiClient (src bffApiClient.ts 67-78): fetch
resolves with a status; a non-2xx status throws an error carrying it. -/
def bffFetchAttempt (statuses : Nat → Nat) (k : Nat) : Except CallFailure Nat :=
  let st := statuses k
  if 200 ≤ st ∧ st ≤ 299 then Except.ok st else Except.error (CallFailure.httpStatus st)

/-- C1 counterexample: the claim says an HTTP 404 is surfaced after the first
attempt with zero additional retries and a circuit-open error is never
retried.  Under handleAll, a permanently-404 endpoint consumes all 3 attempts
(not 1), and so does a permanently circuit-open one. -/
theorem http404_and_circuit_open_are_retried :
    retryHandling handleAll (bffFetchAttempt (fun _ => 404)) 3 =
      (Except.error (CallFailure.httpStatus 404), 3)
    ∧ retryHandling (α := Nat) handleAll (fun _ => Except.error CallFailure.circuitOpen) 3 =
      (Except.error CallFailure.circuitOpen, 3)
    ∧ (3 : Nat) ≠ 1 := by
  exact ⟨rfl, rfl, by decide⟩

theorem retryHandlingGo_handleAll_all_fail {α : Type} (e : Nat → CallFailure) :
    ∀ retriesLeft attempt,
      retryHandlingGo (α := α) handleAll (fun k => Except.error (e k)) attempt retriesLeft =
        (Except.error (e (attempt + retriesLeft)), attempt + retriesLeft) := by
  intro retriesLeft
  induction retriesLeft with
  | zero => intro attempt; rfl
  | succ r ih =>
    intro attempt
    show retryHandlingGo handleAll _ attempt (r + 1) = _
    rw [retryHandlingGo]
    simp only [handleAll, if_true]
    rw [ih (attempt + 1)]
    have : attempt + 1 + r = attempt + (r + 1) := by omega
    rw [this]

/-- C1 amended: the retry predicate is handleAll, so the executor retries
every failure kind alike — network errors, every thrown HTTP-status error
(404 included), timeouts and circuit-open errors — until the attempt budget
is exhausted, and then surfaces the failure of the last attempt; there is no
status-based selectivity.  (In the fetchApi variant of api/client.ts the
!res.ok check sits outside the policy, so there no HTTP status is retried at
all — not even 5xx.) -/
theorem handleAll_retries_every_failure {α : Type} (e : Nat → CallFailure)
    (maxAttempts : Nat) (h : 1 ≤ maxAttempts) :
    retryHandling (α := α) handleAll (fun k => Except.error (e k)) maxAttempts =
      (Except.error (e maxAttempts), maxAttempts) := by
  unfold retryHandling
  rw [retryHandlingGo_handleAll_all_fail e (maxAttempts - 1) 1]
  have : 1 + (maxAttempts - 1) = maxAttempts := by omega
  rw [this]

/-- Witness for C1 (amended): a permanently network-failing endpoint with the
default budget of 3 attempts. -/
theorem handleAll_retries_every_failure_witness :
    retryHandling (α := Unit) handleAll (fun _ => Except.error CallFailure.network) 3 =
      (Except.error CallFailure.network, 3) :=
  handleAll_retries_every_failure (fun _ => CallFailure.network) 3 (by decide)

end WebClient

namespace WebClient

/-! ### Policy sharing per target service: claim C2 -/

structure ResilienceConfig where
  timeout : Nat
  retry : RetryConfig
  circuitBreaker : CircuitBreakerSettings
  deriving Repr, DecidableEq

/-- A cached retry+breaker pair as stored in the module-level Map of
src/lib/bff/web-client/api/client.ts lines 48-51.  createdAt is a creation
sequence number standing in for JS reference identity; the remaining fields
record the configuration the pair was built from. -/
structure CachedPolicies where
  createdAt : Nat
  retryMaxAttempts : Nat
  retryMaxDelay : Nat
  breakerThreshold : Nat
  breakerResetTimeout : Int
  deriving Repr, DecidableEq

/-- The module-level policies Map plus the next creation number. -/
structure PolicyCache where
  entries : List (String × CachedPolicies)
  nextId : Nat
  deriving Repr, DecidableEq

/-- getPolicy (src api/client.ts 62-94): if the domain has no cached entry,
build retry and breaker policies from the supplied config and store them
keyed by the domain; then return the cached pair.  The per-request timeout
policy is created fresh on every call and carries no shared state, so it is
not represented in the cache. -/
def getPolicy (st : PolicyCache) (domain : String) (config : ResilienceConfig) :
    PolicyCache × CachedPolicies :=
  match st.entries.find? (fun p => p.1 == domain) with
  | some p => (st, p.2)
  | none =>
    let inst : CachedPolicies :=
      ⟨st.nextId, config.retry.maxAttempts, config.retry.maxDelay,
       config.circuitBreaker.failureThreshold, config.circuitBreaker.resetTimeout⟩
    (⟨st.entries ++ [(domain, inst)], st.nextId + 1⟩, inst)

theorem find?_append_of_none {α : Type} (p : α → Bool) (l1 l2 : List α)
    (h : l1.find? p = none) : (l1 ++ l2).find? p = l2.find? p := by
  induction l1 with
  | nil => rfl
  | cons a l ih =>
    rw [List.cons_append]
    cases hpa : p a with
    | true => rw [List.find?_cons_of_pos _ hpa] at h; exact absurd h (by simp)
    | false =>
      rw [List.find?_cons_of_neg _ (by simp [hpa])] at h ⊢
      exact ih h

/-- Stateful variant of the withRetry loop: the identical control flow, with
the attempt body threading a state (the JS closure passed to withRetry
mutates the CircuitBreaker object it captured). -/
def withRetryStGo {σ ε α : Type} (fn : Nat → σ → Except ε α × σ) (maxDelay : Nat) :
    Nat → Nat → Nat → σ → Except (Option ε) α × Nat × σ
  | 0, _attempt, _delay, s => (Except.error none, 0, s)
  | fuel + 1, attempt, delay, s =>
    match fn attempt s with
    | (Except.ok v, s2) => (Except.ok v, attempt, s2)
    | (Except.error e, s2) =>
      if fuel = 0 then (Except.error (some e), attempt, s2)
      else withRetryStGo fn maxDelay fuel (attempt + 1) (min (delay * 2) maxDelay) s2

def withRetrySt {σ ε α : Type} (fn : Nat → σ → Except ε α × σ) (config : RetryConfig)
    (s : σ) : Except (Option ε) α × Nat × σ :=
  withRetryStGo fn config.maxDelay config.maxAttempts 1 config.initialDelay s

inductive BreakerFailure (ε : Type) where
  | circuitOpenThrown : BreakerFailure ε
  | inner : ε → BreakerFailure ε
  deriving Repr, DecidableEq

/-- The fetchApi variant at src api/client.ts lines 253-288: the call
constructs a NEW CircuitBreaker — state CircuitBreakerState.init — and runs
withRetry(() => circuitBreaker.execute(() => fetch(url, ...)), domainConfig).
times k supplies Date.now() for attempt k (used for both the open-window
check and the failure timestamp); fetchOutcome k is the k-th fetch result.
The threaded state is (breaker state, count of fetch invocations); the count
tallies how often network I/O was attempted during this one logical call. -/
def fetchApiV2 (cfg : CircuitBreakerSettings) (retryCfg : RetryConfig)
    (times : Nat → Int) (fetchOutcome : Nat → Except Unit Nat) :
    Except (Option (BreakerFailure Unit)) Nat × Nat × (CircuitBreakerState × Nat) :=
  withRetrySt (fun k st =>
      let r := CircuitBreaker.execute cfg st.1 (times k) (times k) (fetchOutcome k)
      let count := st.2 + (if r.2.2 then 1 else 0)
      (match r.1 with
       | CBOutcome.ok v => Except.ok v
       | CBOutcome.circuitOpen => Except.error BreakerFailure.circuitOpenThrown
       | CBOutcome.failed e => Except.error (BreakerFailure.inner e),
       (r.2.1, count)))
    retryCfg (CircuitBreakerState.init, 0)

/-- A cached circuit breaker of the endpoint-keyed Map of
src/lib/bff/web-client/infrastructure/bffApiClient.ts line 15 (same in
webApiClient.ts): createdAt stands in for reference identity. -/
structure CachedBreaker where
  createdAt : Nat
  threshold : Nat
  duration : Nat
  deriving Repr, DecidableEq

structure BreakerCache where
  entries : List (String × CachedBreaker)
  nextId : Nat
  deriving Repr, DecidableEq

/-- The breaker-caching part of createPolicies (infrastructure/bffApiClient.ts
lines 31-39): the Map is keyed by endpointKey — not by target service — and
the breaker is built from that endpoint's circuit-breaker settings. -/
def createPoliciesBreaker (st : BreakerCache) (endpointKey : String) :
    Except JsError (BreakerCache × CachedBreaker) :=
  match st.entries.find? (fun p => p.1 == endpointKey) with
  | some p => Except.ok (st, p.2)
  | none =>
    match getCircuitBreakerConfig endpointKey with
    | Except.error e => Except.error e
    | Except.ok cb =>
      let inst : CachedBreaker := ⟨st.nextId, cb.threshold, cb.duration⟩
      Except.ok (⟨st.entries ++ [(endpointKey, inst)], st.nextId + 1⟩, inst)

/-- C2 counterexample: the claim says every call to any endpoint of a service
observes one shared breaker, so failure counts propagate.  In the fetchApi
variant (threshold 3): a first logical call whose three attempts all fail
ends with its private breaker OPEN (failures 3) — and that state is then
discarded; an immediately following second call to the same service starts
from a fresh breaker and performs 3 more fetch invocations, although a
breaker carrying the first call's state would have rejected it without
network I/O (third conjunct).  Moreover, in the endpoint-keyed infrastructure
client, the sibling userApi endpoints getUser and createUser (which differ
only in retry overrides) receive two distinct breaker instances. -/
theorem breaker_state_not_shared_across_calls :
    fetchApiV2 ⟨3, 30000⟩ ⟨3, 1000, 5000⟩ (fun k => (k : Int)) (fun _ => Except.error ()) =
      (Except.error (some (BreakerFailure.inner ())), 3, (⟨3, 3, true⟩, 3))
    ∧ fetchApiV2 ⟨3, 30000⟩ ⟨3, 1000, 5000⟩ (fun k => (10 : Int) + k)
        (fun _ => Except.error ()) =
      (Except.error (some (BreakerFailure.inner ())), 3, (⟨3, 13, true⟩, 3))
    ∧ (CircuitBreaker.execute (α := Nat) ⟨3, 30000⟩ ⟨3, 3, true⟩ 11 11
        (Except.error ())).2.2 = false
    ∧ createPoliciesBreaker ⟨[], 0⟩ "getUser" =
        Except.ok (⟨[("getUser", ⟨0, 5, 30000⟩)], 1⟩, ⟨0, 5, 30000⟩)
    ∧ createPoliciesBreaker ⟨[("getUser", ⟨0, 5, 30000⟩)], 1⟩ "createUser" =
        Except.ok (⟨[("getUser", ⟨0, 5, 30000⟩), ("createUser", ⟨1, 5, 30000⟩)], 2⟩,
          ⟨1, 5, 30000⟩)
    ∧ (⟨0, 5, 30000⟩ : CachedBreaker) ≠ ⟨1, 5, 30000⟩ := by
  exact ⟨rfl, rfl, rfl, rfl, rfl, by decide⟩

/-- C2 amended: in the getPolicy path of api/client.ts, the retry+breaker
pair IS cached per domain: after any call creates or finds the entry for a
domain, every later getPolicy call for that domain — whatever resilience
config (e.g. a different retry override) it passes — returns the identical
cached instance and leaves the cache unchanged.  (The fetchApi variant and
the endpoint-keyed infrastructure clients do not share breakers this way, as
the counterexample shows.) -/
theorem getPolicy_caches_per_domain (st : PolicyCache) (domain : String)
    (c1 c2 : ResilienceConfig) :
    (getPolicy (getPolicy st domain c1).1 domain c2).2 = (getPolicy st domain c1).2
    ∧ (getPolicy (getPolicy st domain c1).1 domain c2).1 = (getPolicy st domain c1).1 := by
  cases hf : st.entries.find? (fun p => p.1 == domain) with
  | some p =>
    constructor <;> simp [getPolicy, hf]
  | none =>
    have hfind : ((st.entries ++
        [(domain, (⟨st.nextId, c1.retry.maxAttempts, c1.retry.maxDelay,
          c1.circuitBreaker.failureThreshold,
          c1.circuitBreaker.resetTimeout⟩ : CachedPolicies))]).find?
          (fun p => p.1 == domain)) =
        some (domain, ⟨st.nextId, c1.retry.maxAttempts, c1.retry.maxDelay,
          c1.circuitBreaker.failureThreshold, c1.circuitBreaker.resetTimeout⟩) := by
      rw [find?_append_of_none _ _ _ hf]
      simp [List.find?]
    constructor <;> simp [getPolicy, hf, hfind]

end WebClient

namespace WebClient

/-! ### Layer composition order: claim C4

src api/client.ts lines 84-93 composes, outermost first,
retryPolicy.execute(() => timeoutPolicy.execute(() => cbPolicy.execute(fn))),
while src infrastructure/webApiClient.ts lines 41-47 (and
infrastructure/bffApiClient.ts 41-47) composes
timeoutPolicy.execute(() => breakerPolicy.execute(() => retryPolicy.execute(fn))).
The two nestings below are taken verbatim from those call sites.  The
semantics of the three cockatiel layers is modelled from the spec (cockatiel
itself is not under src/): a policy run maps (clock, next attempt index,
breaker state) to (result, clock after, index after, state after); the
timeout layer cuts a run whose elapsed time exceeds timeoutMs; the retry
layer re-runs its inner policy up to maxAttempts total, adding the doubling,
capped backoff delays to the clock between runs; the breaker layer rejects
instantly (zero elapsed time) while open, lets the first call after
openDurationMs through as a trial, counts consecutive failures against the
threshold, and re-opens on a failed trial. -/

inductive RunError (ε : Type) where
  | inner : ε → RunError ε
  | timedOut : RunError ε
  | circuitOpen : RunError ε
  deriving Repr, DecidableEq

/-- One prospective raw attempt: how long it runs and what it returns. -/
structure AttemptSpec (ε α : Type) where
  duration : Nat
  result : Except ε α

structure BreakerSt where
  consecutiveFailures : Nat
  openedAt : Option Nat
  deriving Repr, DecidableEq

abbrev PolicyRun (ε α : Type) :=
  Nat → Nat → BreakerSt → Except (RunError ε) α × Nat × Nat × BreakerSt

def rawCall {ε α : Type} (attempts : Nat → AttemptSpec ε α) : PolicyRun ε α :=
  fun clock i s =>
    match (attempts i).result with
    | Except.ok v => (Except.ok v, clock + (attempts i).duration, i + 1, s)
    | Except.error e =>
      (Except.error (RunError.inner e), clock + (attempts i).duration, i + 1, s)

def timeoutLayer {ε α : Type} (timeoutMs : Nat) (p : PolicyRun ε α) : PolicyRun ε α :=
  fun clock i s =>
    let r := p clock i s
    if clock + timeoutMs < r.2.1 then
      (Except.error RunError.timedOut, clock + timeoutMs, r.2.2.1, r.2.2.2)
    else r

def breakerLayer {ε α : Type} (threshold openDurationMs : Nat) (p : PolicyRun ε α) :
    PolicyRun ε α :=
  fun clock i s =>
    match s.openedAt with
    | some t =>
      if clock < t + openDurationMs then
        (Except.error RunError.circuitOpen, clock, i, s)
      else
        let r := p clock i s
        match r.1 with
        | Except.ok v => (Except.ok v, r.2.1, r.2.2.1, ⟨0, none⟩)
        | Except.error e =>
          (Except.error e, r.2.1, r.2.2.1, ⟨s.consecutiveFailures + 1, some r.2.1⟩)
    | none =>
      let r := p clock i s
      match r.1 with
      | Except.ok v => (Except.ok v, r.2.1, r.2.2.1, ⟨0, none⟩)
      | Except.error e =>
        let f := s.consecutiveFailures + 1
        (Except.error e, r.2.1, r.2.2.1,
          ⟨f, if threshold ≤ f then some r.2.1 else none⟩)

def retryLayerGo {ε α : Type} (p : PolicyRun ε α) (maxDelay : Nat) :
    Nat → Nat → Nat → Nat → BreakerSt → Except (RunError ε) α × Nat × Nat × BreakerSt
  | 0, _delay, clock, i, s => p clock i s
  | retriesLeft + 1, delay, clock, i, s =>
    match p clock i s with
    | (Except.ok v, c2, i2, s2) => (Except.ok v, c2, i2, s2)
    | (Except.error _e, c2, i2, s2) =>
      retryLayerGo p maxDelay retriesLeft (min (delay * 2) maxDelay) (c2 + delay) i2 s2

def retryLayer {ε α : Type} (cfg : RetryConfig) (p : PolicyRun ε α) : PolicyRun ε α :=
  fun clock i s => retryLayerGo p cfg.maxDelay (cfg.maxAttempts - 1) cfg.initialDelay clock i s

/-- The executor of getPolicy (src api/client.ts 84-93):
retry around timeout around circuit breaker around the raw call. -/
def clientGetPolicyExecute {ε α : Type} (timeoutMs threshold openDurationMs : Nat)
    (retryCfg : RetryConfig) (attempts : Nat → AttemptSpec ε α) : PolicyRun ε α :=
  retryLayer retryCfg
    (timeoutLayer timeoutMs
      (breakerLayer threshold openDurationMs (rawCall attempts)))

/-- The executor of createPolicies (src infrastructure/webApiClient.ts 41-47):
timeout around circuit breaker around retry around the raw call. -/
def webApiClientExecute {ε α : Type} (timeoutMs threshold openDurationMs : Nat)
    (retryCfg : RetryConfig) (attempts : Nat → AttemptSpec ε α) : PolicyRun ε α :=
  timeoutLayer timeoutMs
    (breakerLayer threshold openDurationMs
      (retryLayer retryCfg (rawCall attempts)))

/-- Attempt schedule used for the C4 scenario: the first attempt fails after
60 ms, every later attempt succeeds after 60 ms. -/
def c4Attempts : Nat → AttemptSpec Unit Nat := fun i =>
  match i with
  | 0 => ⟨60, Except.error ()⟩
  | _ + 1 => ⟨60, Except.ok 1⟩

/-- C4 counterexample: the claim says the executor composes
retry → timeout → circuit breaker for every logical invocation, so each
individual attempt is bounded by timeoutMs.  With timeoutMs = 100 and two
60 ms attempts (fail then succeed, both individually under the bound), the
webApiClient executor — which nests timeout outermost — times the WHOLE retry
sequence out and fails, while the client.ts getPolicy nesting retries and
succeeds. -/
theorem whole_retry_sequence_shares_one_timeout :
    (webApiClientExecute 100 10 1000 ⟨2, 0, 0⟩ c4Attempts 0 0 ⟨0, none⟩).1 =
      Except.error RunError.timedOut
    ∧ (clientGetPolicyExecute 100 10 1000 ⟨2, 0, 0⟩ c4Attempts 0 0 ⟨0, none⟩).1 =
      Except.ok 1
    ∧ (c4Attempts 0).duration = 60 ∧ (c4Attempts 1).duration = 60 ∧ (60 : Nat) ≤ 100 := by
  exact ⟨rfl, rfl, rfl, rfl, by decide⟩

theorem breakerRaw_no_timeout {ε α : Type} (T threshold d : Nat)
    (attempts : Nat → AttemptSpec ε α) (hdur : ∀ i, (attempts i).duration ≤ T) :
    ∀ clock i s,
      (breakerLayer threshold d (rawCall attempts) clock i s).1 ≠
          Except.error RunError.timedOut
        ∧ (breakerLayer threshold d (rawCall attempts) clock i s).2.1 ≤ clock + T := by
  intro clock i s
  obtain ⟨f, oa⟩ := s
  cases oa with
  | none =>
    simp only [breakerLayer, rawCall]
    cases hr : (attempts i).result with
    | ok v =>
      refine ⟨by simp, ?_⟩
      have := hdur i
      simp only []
      omega
    | error e =>
      refine ⟨by simp, ?_⟩
      have := hdur i
      simp only []
      omega
  | some t =>
    simp only [breakerLayer, rawCall]
    by_cases hlt : clock < t + d
    · rw [if_pos hlt]
      exact ⟨by simp, by show clock ≤ clock + T; omega⟩
    · rw [if_neg hlt]
      cases hr : (attempts i).result with
      | ok v =>
        refine ⟨by simp, ?_⟩
        have := hdur i
        simp only []
        omega
      | error e =>
        refine ⟨by simp, ?_⟩
        have := hdur i
        simp only []
        omega

theorem retryLayerGo_no_timeout {ε α : Type} (p : PolicyRun ε α) (maxD : Nat)
    (hp : ∀ clock i s, (p clock i s).1 ≠ Except.error RunError.timedOut) :
    ∀ retriesLeft delay clock i s,
      (retryLayerGo p maxD retriesLeft delay clock i s).1 ≠
        Except.error RunError.timedOut := by
  intro retriesLeft
  induction retriesLeft with
  | zero =>
    intro delay clock i s
    exact hp clock i s
  | succ r ih =>
    intro delay clock i s
    simp only [retryLayerGo]
    split
    · simp
    · exact ih _ _ _ _

/-- C4 amended: the getPolicy executor of api/client.ts does compose
retry → timeout → circuit breaker, so each individual attempt (never the
retry sequence as a whole) is bounded by timeoutMs — whenever every raw
attempt takes at most timeoutMs, the composed execution can never surface a
timeout — and an attempt that finds the circuit open fails fast, consuming
zero time and leaving the state untouched.  The infrastructure executors
(webApiClient.ts, infrastructure/bffApiClient.ts) instead nest
timeout → circuit breaker → retry, so there timeoutMs bounds the whole retry
sequence, as the counterexample shows. -/
theorem client_composition_bounds_each_attempt {ε α : Type}
    (T threshold d : Nat) (rc : RetryConfig) (attempts : Nat → AttemptSpec ε α)
    (hdur : ∀ i, (attempts i).duration ≤ T) :
    (∀ clock i s, (clientGetPolicyExecute T threshold d rc attempts clock i s).1 ≠
        Except.error RunError.timedOut)
    ∧ (∀ clock i f t, clock < t + d →
        timeoutLayer T (breakerLayer threshold d (rawCall attempts)) clock i ⟨f, some t⟩ =
          (Except.error RunError.circuitOpen, clock, i, ⟨f, some t⟩)) := by
  constructor
  · intro clock i s
    unfold clientGetPolicyExecute retryLayer
    apply retryLayerGo_no_timeout
    intro c j st
    have h := breakerRaw_no_timeout T threshold d attempts hdur c j st
    unfold timeoutLayer
    simp only []
    rw [if_neg (by have := h.2; omega)]
    exact h.1
  · intro clock i f t hlt
    unfold timeoutLayer breakerLayer
    simp only []
    rw [if_pos hlt]
    rw [if_neg (by show ¬ (clock + T < clock); omega)]

/-- Witness for C4 (amended): the C4 attempt schedule (all durations 60 ≤ 100)
can never produce a timeout through the client.ts composition. -/
theorem client_composition_bounds_each_attempt_witness :
    (clientGetPolicyExecute 100 10 1000 ⟨2, 0, 0⟩ c4Attempts 0 0 ⟨0, none⟩).1 ≠
      Except.error RunError.timedOut :=
  (client_composition_bounds_each_attempt 100 10 1000 ⟨2, 0, 0⟩ c4Attempts
    (fun i => by cases i with
      | zero => decide
      | succ n => exact (by decide : (60 : Nat) ≤ 100))).1 0 0 ⟨0, none⟩

end WebClient
